import Mathlib

/-!
Shallow embedding of the migoku session/mirror manager (Go) and proofs of
its specified properties.  Time instants and durations are modelled as
integers counting nanoseconds, matching Go's `time.Duration`/`time.Time`
nanosecond resolution.  Network and file-system effects are modelled by
explicit outcome parameters (`Except`/`Bool` oracles), and the observable
side effects of each operation are returned as explicit event traces.
-/

/-- Opaque Go error values. -/
inductive GoError where
  | mk (msg : String)
deriving DecidableEq, Repr

/-- One second in nanoseconds (`time.Second`). -/
def secondNs : Int := 1000000000

namespace Client

/-- `isRefreshStale` from `client.go`: `time.Since(lastRefresh) >= threshold`. -/
def isRefreshStale (now lastRefresh threshold : Int) : Bool :=
  now - lastRefresh ≥ threshold

/-- `refreshDBIfStale` from `client.go`, abstracted over the outcome of the
`refreshDB` fetch-and-install cycle.  Returns the call's result together with
a flag recording whether `refreshDB` was invoked. -/
def refreshDBIfStale (now lastRefresh ttl : Int)
    (refreshResult : Except GoError Unit) : Except GoError Unit × Bool :=
  if ttl ≤ 0 then
    (Except.ok (), false)
  else
    let buffer := 2 * secondNs
    let threshold := max (ttl - buffer) 0
    if ¬ isRefreshStale now lastRefresh threshold then
      (Except.ok (), false)
    else
      (refreshResult, true)

end Client

namespace ResultCache

/-- `CacheEntry` from `handlers.go`. -/
structure CacheEntry (V : Type) where
  data : V
  expiresAt : Int
deriving DecidableEq, Repr

/-- `Cache` from `handlers.go`: the Go map is modelled as an association
list with unique keys (insertion replaces any previous binding). -/
structure Cache (V : Type) where
  cache : List (String × CacheEntry V)
  ttl : Int
deriving DecidableEq, Repr

/-- `NewCache` from `handlers.go`. -/
def NewCache (V : Type) (ttl : Int) : Cache V := ⟨[], ttl⟩

/-- `Cache.Get` from `handlers.go`: a missing key is a miss; an entry whose
`ExpiresAt` lies strictly in the past (`time.Now().After`) is deleted and
reported as a miss; otherwise the stored data is returned. -/
def Cache.get {V : Type} (c : Cache V) (now : Int) (key : String) :
    Option V × Cache V :=
  match c.cache.find? (fun p => p.1 == key) with
  | none => (none, c)
  | some (_, entry) =>
      if now > entry.expiresAt then
        (none, { c with cache := c.cache.filter (fun p => p.1 != key) })
      else
        (some entry.data, c)

/-- `Cache.Set` from `handlers.go`: stores the value with expiry
`now + ttl`, replacing any previous binding of the key. -/
def Cache.set {V : Type} (c : Cache V) (now : Int) (key : String) (value : V) :
    Cache V :=
  { c with cache := (key, ⟨value, now + c.ttl⟩) :: c.cache.filter (fun p => p.1 != key) }

/-- `Cache.Clear` from `handlers.go`: replaces the backing map with a fresh
empty one. -/
def Cache.clear {V : Type} (c : Cache V) : Cache V :=
  { c with cache := [] }

end ResultCache

namespace ResultCache

theorem find?_filter_ne {V : Type} (l : List (String × CacheEntry V)) (k : String) :
    (l.filter (fun p => p.1 != k)).find? (fun p => p.1 == k) = none := by
  rw [List.find?_eq_none]
  intro p hp
  have hmem := List.of_mem_filter hp
  simpa using hmem

end ResultCache

/-- C1: for every TTL `t > 0`, `refreshDBIfStale` does not call `refreshDB`
exactly when the elapsed time since `lastRefresh` is below
`max (t - 2s) 0`, calls it when the elapsed time reaches that threshold,
and for `t ≤ 0` it never calls `refreshDB` (returning `ok`). -/
theorem refreshDBIfStale_staleness (now lastRefresh ttl : Int)
    (r : Except GoError Unit) :
    (0 < ttl →
      ((Client.refreshDBIfStale now lastRefresh ttl r).2 = true ↔
        max (ttl - 2 * secondNs) 0 ≤ now - lastRefresh)) ∧
    (ttl ≤ 0 →
      Client.refreshDBIfStale now lastRefresh ttl r =
        (Except.ok (), false)) := by
  constructor
  · intro hpos
    unfold Client.refreshDBIfStale
    have hne : ¬ ttl ≤ 0 := not_le.mpr hpos
    simp only [hne, if_false]
    unfold Client.isRefreshStale
    by_cases hst : max (ttl - 2 * secondNs) 0 ≤ now - lastRefresh
    · simp [hst]
    · simp [hst]
  · intro hle
    unfold Client.refreshDBIfStale
    simp [hle]

/-- Witness for C1 at concrete inputs: with `ttl = 10s` and elapsed `7s`
the threshold `8s` is not reached and no refresh is triggered. -/
theorem refreshDBIfStale_staleness_witness :
    (Client.refreshDBIfStale (7 * secondNs) 0 (10 * secondNs)
      (Except.ok ())).2 = false := by
  have h := (refreshDBIfStale_staleness (7 * secondNs) 0 (10 * secondNs)
    (Except.ok ())).1 (by decide)
  by_contra hc
  have := h.mp (by simpa using hc)
  revert this
  decide

/-- C4: after `Cache.Set k v` at time `tset`, a `Cache.Get k` at a time not
past the entry's expiry (`tset + ttl`) returns the value; a `Get` strictly
after the expiry is a miss and removes the entry from the backing map; and a
`Get` of a key with no binding is a miss that leaves the cache unchanged —
expiry is decided only inside `Get`. -/
theorem cache_set_get_ttl {V : Type} (c : ResultCache.Cache V)
    (tset tget : Int) (k : String) (v : V) :
    (tget ≤ tset + c.ttl →
      ((c.set tset k v).get tget k).1 = some v) ∧
    (tget > tset + c.ttl →
      ((c.set tset k v).get tget k).1 = none ∧
      (((c.set tset k v).get tget k).2).cache.find? (fun p => p.1 == k) = none) ∧
    (c.cache.find? (fun p => p.1 == k) = none →
      c.get tget k = (none, c)) := by
  refine ⟨?_, ?_, ?_⟩
  · intro hle
    simp only [ResultCache.Cache.set, ResultCache.Cache.get, List.find?]
    simp [not_lt.mpr hle]
  · intro hgt
    simp only [ResultCache.Cache.set, ResultCache.Cache.get, List.find?]
    simp only [beq_self_eq_true, if_true]
    constructor
    · simp [hgt]
    · simp only [hgt, if_true]
      have h1 : ((k, (⟨v, tset + c.ttl⟩ : ResultCache.CacheEntry V)) ::
          c.cache.filter (fun p => p.1 != k)).filter (fun p => p.1 != k) =
          (c.cache.filter (fun p => p.1 != k)).filter (fun p => p.1 != k) := by
        simp [List.filter]
      simp only [h1, List.filter_filter]
      have h2 : ∀ l : List (String × ResultCache.CacheEntry V),
          l.filter (fun p => (p.1 != k) && (p.1 != k)) =
          l.filter (fun p => p.1 != k) := by
        intro l
        apply List.filter_congr
        intro x _
        cases hb : (x.1 != k) <;> simp [hb]
      rw [h2]
      exact ResultCache.find?_filter_ne c.cache k
  · intro hnone
    simp [ResultCache.Cache.get, hnone]

/-- Witness for C4 at concrete inputs (ttl = 10ns, set at 0): a get at 10
hits, a get at 11 misses and evicts, and a get of an unset key misses. -/
theorem cache_set_get_ttl_witness :
    ((((ResultCache.NewCache Nat 10).set 0 "k" 7).get 10 "k").1 = some 7) ∧
    ((((ResultCache.NewCache Nat 10).set 0 "k" 7).get 11 "k").1 = none) ∧
    ((ResultCache.NewCache Nat 10).get 5 "w" = (none, ResultCache.NewCache Nat 10)) := by
  refine ⟨?_, ?_, ?_⟩
  · exact (cache_set_get_ttl (ResultCache.NewCache Nat 10) 0 10 "k" 7).1 (by decide)
  · exact (((cache_set_get_ttl (ResultCache.NewCache Nat 10) 0 11 "k" 7).2).1
      (by decide)).1
  · exact ((cache_set_get_ttl (ResultCache.NewCache Nat 10) 0 5 "w" 7).2).2 (by decide)

namespace Credential

/-- `FirebaseAuthToken` from `migaku_api.go` (the mutex is modelled by
running calls sequentially in acquisition order). -/
structure FirebaseAuthToken where
  refreshToken : String
  authToken : String
  expiresAt : Int
deriving DecidableEq, Repr

/-- Parsed body of a renewal response: `access_token` and the
`strconv.Atoi` best-effort value of `expires_in` (0 when unparsable). -/
structure RefreshResponse where
  accessToken : String
  expiresIn : Int
deriving DecidableEq, Repr

/-- Outcome of the single renewal HTTP exchange in `refreshLocked`: a
transport error, or a response with its HTTP status and (when the body is
valid JSON) its parsed form. -/
inductive RenewalNet where
  | transportError (e : GoError)
  | response (status : Int) (parsed : Option RefreshResponse)
deriving DecidableEq, Repr

/-- `FirebaseAuthToken.refreshLocked` from `migaku_api.go`: on transport
error, non-200 status or an unparsable body it returns an error leaving the
token unchanged; on success it stores the new access token and sets
`expiresAt` to `now + (expiresIn - 5)s`, defaulting `expiresIn` to 3600
when it is not a positive number. -/
def refreshLocked (t : FirebaseAuthToken) (now : Int) (net : RenewalNet) :
    Except GoError String × FirebaseAuthToken :=
  match net with
  | .transportError e => (.error e, t)
  | .response status parsed =>
      if status ≠ 200 then
        (.error (.mk "failed to refresh token"), t)
      else
        match parsed with
        | none => (.error (.mk "failed to parse refresh response"), t)
        | some res =>
            let expiresInSec := if res.expiresIn ≤ 0 then 3600 else res.expiresIn
            let t' : FirebaseAuthToken :=
              { t with
                  authToken := res.accessToken,
                  expiresAt := now + (expiresInSec - 5) * secondNs }
            (.ok res.accessToken, t')

/-- `FirebaseAuthToken.get` from `migaku_api.go`.  The third component
counts renewal exchanges issued by the call (0 or 1). -/
def get (t : FirebaseAuthToken) (now : Int) (net : RenewalNet) :
    Except GoError String × FirebaseAuthToken × Nat :=
  if now < t.expiresAt ∧ t.authToken ≠ "" then
    (.ok t.authToken, t, 0)
  else
    let r := refreshLocked t now net
    (r.1, r.2, 1)

/-- A sequence of `get` calls in mutex-acquisition order, all against the
same renewal-exchange outcome; returns the final token state and the total
number of renewal exchanges issued. -/
def runGets (t : FirebaseAuthToken) (net : RenewalNet) :
    List Int → FirebaseAuthToken × Nat
  | [] => (t, 0)
  | now :: rest =>
      let r := get t now net
      let rec' := runGets r.2.1 net rest
      (rec'.1, r.2.2 + rec'.2)

theorem runGets_fresh (t : FirebaseAuthToken) (net : RenewalNet)
    (times : List Int) (htok : t.authToken ≠ "")
    (hfresh : ∀ s ∈ times, s < t.expiresAt) :
    runGets t net times = (t, 0) := by
  induction times with
  | nil => rfl
  | cons hd tl ih =>
      have hhd : hd < t.expiresAt := hfresh hd (List.mem_cons_self hd tl)
      have hget : get t hd net = (.ok t.authToken, t, 0) := by
        simp [get, hhd, htok]
      simp only [runGets, hget]
      rw [ih (fun s hs => hfresh s (List.mem_cons_of_mem hd hs))]
      simp

end Credential

/-- C3: `FirebaseAuthToken.get` returns the stored token without any
renewal exchange when `now < expiresAt` and the token is non-empty;
otherwise it issues exactly one renewal exchange which, on any failure
(transport error, non-200 status, unparsable body), returns an error and
leaves the token unchanged, and on success replaces `authToken` and sets
`expiresAt` to `now + (expiresIn - 5)s` (defaulting `expiresIn` to 3600). -/
theorem firebase_get_token (t : Credential.FirebaseAuthToken) (now : Int)
    (net : Credential.RenewalNet) :
    (now < t.expiresAt ∧ t.authToken ≠ "" →
      Credential.get t now net = (Except.ok t.authToken, t, 0)) ∧
    (¬ (now < t.expiresAt ∧ t.authToken ≠ "") →
      (Credential.get t now net).2.2 = 1 ∧
      (∀ e, (Credential.get t now net).1 = Except.error e →
        (Credential.get t now net).2.1 = t) ∧
      (∀ e, net = Credential.RenewalNet.transportError e →
        (Credential.get t now net).1 = Except.error e) ∧
      (∀ status parsed, net = Credential.RenewalNet.response status parsed →
        status ≠ 200 ∨ parsed = none →
        ∃ e, (Credential.get t now net).1 = Except.error e) ∧
      (∀ res, net = Credential.RenewalNet.response 200 (some res) →
        Credential.get t now net =
          (Except.ok res.accessToken,
           { t with
               authToken := res.accessToken,
               expiresAt := now +
                 ((if res.expiresIn ≤ 0 then 3600 else res.expiresIn) - 5) *
                   secondNs },
           1))) := by
  constructor
  · intro h
    simp [Credential.get, h]
  · intro h
    simp only [Credential.get, if_neg h]
    refine ⟨by trivial, ?_, ?_, ?_, ?_⟩
    · intro e he
      cases net with
      | transportError e0 => simp [Credential.refreshLocked]
      | response status parsed =>
          by_cases hs : status = 200
          · cases parsed with
            | none => simp [Credential.refreshLocked, hs]
            | some res =>
                subst hs
                simp [Credential.refreshLocked] at he
          · simp [Credential.refreshLocked, hs]
    · intro e hnet
      subst hnet
      simp [Credential.refreshLocked]
    · intro status parsed hnet hbad
      subst hnet
      rcases hbad with hs | hp
      · exact ⟨GoError.mk "failed to refresh token", by simp [Credential.refreshLocked, hs]⟩
      · subst hp
        by_cases hs : status = 200
        · exact ⟨GoError.mk "failed to parse refresh response",
            by simp [Credential.refreshLocked, hs]⟩
        · exact ⟨GoError.mk "failed to refresh token",
            by simp [Credential.refreshLocked, hs]⟩
    · intro res hnet
      subst hnet
      simp [Credential.refreshLocked]

/-- Witness for C3 at concrete inputs: a fresh token is returned verbatim
with no renewal; an expired token with a failing exchange keeps its state;
an expired token with a successful exchange is replaced in place. -/
theorem firebase_get_token_witness :
    (Credential.get ⟨"rt", "tok", 100⟩ 50
        (Credential.RenewalNet.response 200 none) =
      (Except.ok "tok", ⟨"rt", "tok", 100⟩, 0)) ∧
    ((Credential.get ⟨"rt", "tok", 100⟩ 200
        (Credential.RenewalNet.response 500 none)).2.1 = ⟨"rt", "tok", 100⟩) ∧
    (Credential.get ⟨"rt", "tok", 100⟩ 200
        (Credential.RenewalNet.response 200 (some ⟨"new", 3600⟩)) =
      (Except.ok "new", ⟨"rt", "new", 200 + 3595 * secondNs⟩, 1)) := by
  refine ⟨?_, ?_, ?_⟩
  · exact (firebase_get_token ⟨"rt", "tok", 100⟩ 50
      (Credential.RenewalNet.response 200 none)).1 ⟨by decide, by decide⟩
  · exact ((firebase_get_token ⟨"rt", "tok", 100⟩ 200
      (Credential.RenewalNet.response 500 none)).2 (by decide)).2.1
      (GoError.mk "failed to refresh token") (by rfl)
  · have h := ((firebase_get_token ⟨"rt", "tok", 100⟩ 200
      (Credential.RenewalNet.response 200 (some ⟨"new", 3600⟩))).2
      (by decide)).2.2.2.2 ⟨"new", 3600⟩ rfl
    rw [h]
    norm_num

/-- C9: a sequence of `get` calls serialized by the token's mutex, all of
which would observe the initially expired credential, issues exactly one
renewal exchange: the first call renews and every later call, finding the
refreshed non-empty token still unexpired, returns it without a renewal. -/
theorem renewal_collapse (t : Credential.FirebaseAuthToken)
    (t0 : Int) (rest : List Int) (res : Credential.RefreshResponse)
    (hstale : ¬ (t0 < t.expiresAt ∧ t.authToken ≠ ""))
    (htok : res.accessToken ≠ "")
    (hrest : ∀ s ∈ rest,
      s < t0 + ((if res.expiresIn ≤ 0 then 3600 else res.expiresIn) - 5) * secondNs) :
    (Credential.runGets t (Credential.RenewalNet.response 200 (some res))
      (t0 :: rest)).2 = 1 := by
  have hget : Credential.get t t0 (Credential.RenewalNet.response 200 (some res)) =
      (Except.ok res.accessToken,
       { t with
           authToken := res.accessToken,
           expiresAt := t0 +
             ((if res.expiresIn ≤ 0 then 3600 else res.expiresIn) - 5) * secondNs },
       1) := by
    simp [Credential.get, hstale, Credential.refreshLocked]
  simp only [Credential.runGets, hget]
  rw [Credential.runGets_fresh _ _ rest htok hrest]
  simp

/-- Witness for C9 at N = 3 concrete callers, all arriving after the
credential expired: exactly one renewal exchange is issued. -/
theorem renewal_collapse_witness :
    (Credential.runGets ⟨"rt", "", 0⟩
      (Credential.RenewalNet.response 200 (some ⟨"new", 3600⟩))
      [0, 1, 2]).2 = 1 := by
  exact renewal_collapse ⟨"rt", "", 0⟩ 0 [1, 2] ⟨"new", 3600⟩
    (by decide) (by decide) (by decide)

namespace Mirror

/-- Side effects `refreshDB` can attempt, in program order. -/
inductive RefreshEvent where
  | download
  | writeTmp
  | openTmp
  | renameOverDbPath
  | swapHandle
  | setLastRefresh
deriving DecidableEq, Repr

/-- Outcomes of the external steps of one `refreshDB` run: the snapshot
download, the temp-file write, the sqlite open of the temp file, and the
rename over `dbPath`; `now` is the instant recorded on success. -/
structure RefreshEnv where
  downloadResult : Except GoError (List Nat)
  writeOk : Bool
  openOk : Bool
  renameOk : Bool
  now : Int
deriving Repr

/-- The refresh-relevant state of `MigakuClient`: the session's presence,
the open handle (as an identifier drawn from `nextHandle`), the file
contents at `dbPath` and at the temp path, and `lastRefresh`. -/
structure ClientState where
  hasSession : Bool
  db : Option Nat
  dbPathContent : Option (List Nat)
  tmpContent : Option (List Nat)
  lastRefresh : Int
  nextHandle : Nat
deriving DecidableEq, Repr

/-- `refreshDB` from `client.go`: download, write the bytes to
`dbPath + ".tmp"`, open the temp file as a database, then (under the write
lock) rename it over `dbPath`, close and replace the old handle, and record
`lastRefresh`.  A failed open removes the temp file; a failed rename closes
the new handle.  Returns the result, the post state, and the trace of
attempted effects. -/
def refreshDB (env : RefreshEnv) (s : ClientState) :
    Except GoError Unit × ClientState × List RefreshEvent :=
  if ¬ s.hasSession then
    (Except.error (GoError.mk "missing migaku session"), s, [])
  else
    match env.downloadResult with
    | Except.error e => (Except.error e, s, [RefreshEvent.download])
    | Except.ok data =>
        if ¬ env.writeOk then
          (Except.error (GoError.mk "failed to write db temp file"), s,
           [RefreshEvent.download, RefreshEvent.writeTmp])
        else
          let s1 := { s with tmpContent := some data }
          if ¬ env.openOk then
            (Except.error (GoError.mk "failed to open new sqlite db"),
             { s1 with tmpContent := none },
             [RefreshEvent.download, RefreshEvent.writeTmp, RefreshEvent.openTmp])
          else
            let newHandle := s1.nextHandle
            let s2 := { s1 with nextHandle := newHandle + 1 }
            if ¬ env.renameOk then
              (Except.error (GoError.mk "failed to swap db file"), s2,
               [RefreshEvent.download, RefreshEvent.writeTmp, RefreshEvent.openTmp,
                RefreshEvent.renameOverDbPath])
            else
              (Except.ok (),
               { s2 with
                   dbPathContent := some data,
                   tmpContent := none,
                   db := some newHandle,
                   lastRefresh := env.now },
               [RefreshEvent.download, RefreshEvent.writeTmp, RefreshEvent.openTmp,
                RefreshEvent.renameOverDbPath, RefreshEvent.swapHandle,
                RefreshEvent.setLastRefresh])

end Mirror

/-- C2: if `refreshDB` fails before the swap — the download errors, the
temp-file write fails, or the temp file cannot be opened as a database —
it returns an error and leaves the handle, the `dbPath` file and
`lastRefresh` unchanged; and the rename over `dbPath`, the handle swap and
the `lastRefresh` update are attempted only when the download, the temp
write and the open have all succeeded. -/
theorem refreshDB_atomic_install (env : Mirror.RefreshEnv) (s : Mirror.ClientState) :
    (((∃ e, env.downloadResult = Except.error e) ∨ env.writeOk = false ∨
        env.openOk = false) →
      (∃ e, (Mirror.refreshDB env s).1 = Except.error e) ∧
      (Mirror.refreshDB env s).2.1.db = s.db ∧
      (Mirror.refreshDB env s).2.1.dbPathContent = s.dbPathContent ∧
      (Mirror.refreshDB env s).2.1.lastRefresh = s.lastRefresh) ∧
    ((Mirror.RefreshEvent.renameOverDbPath ∈ (Mirror.refreshDB env s).2.2 ∨
      Mirror.RefreshEvent.swapHandle ∈ (Mirror.refreshDB env s).2.2 ∨
      Mirror.RefreshEvent.setLastRefresh ∈ (Mirror.refreshDB env s).2.2) →
      (∃ data, env.downloadResult = Except.ok data) ∧
      env.writeOk = true ∧ env.openOk = true) := by
  by_cases hsess : s.hasSession
  · cases hdl : env.downloadResult with
    | error e =>
        constructor
        · intro _
          simp [Mirror.refreshDB, hsess, hdl]
        · intro hmem
          simp [Mirror.refreshDB, hsess, hdl] at hmem
    | ok data =>
        by_cases hw : env.writeOk
        · by_cases ho : env.openOk
          · constructor
            · intro hbad
              rcases hbad with ⟨e, he⟩ | hw' | ho'
              · exact absurd he (by simp)
              · exact absurd hw' (by simp [hw])
              · exact absurd ho' (by simp [ho])
            · intro _
              exact ⟨⟨data, rfl⟩, by simp [hw], by simp [ho]⟩
          · constructor
            · intro _
              simp [Mirror.refreshDB, hsess, hdl, hw, ho]
            · intro hmem
              simp [Mirror.refreshDB, hsess, hdl, hw, ho] at hmem
        · constructor
          · intro _
            simp [Mirror.refreshDB, hsess, hdl, hw]
          · intro hmem
            simp [Mirror.refreshDB, hsess, hdl, hw] at hmem
  · constructor
    · intro _
      simp [Mirror.refreshDB, hsess]
    · intro hmem
      simp [Mirror.refreshDB, hsess] at hmem

/-- Witness for C2 at concrete inputs: a failed open leaves the prior
handle, `dbPath` content and `lastRefresh` in place, and a fully
successful run reports that download, write and open all succeeded. -/
theorem refreshDB_atomic_install_witness :
    ((Mirror.refreshDB ⟨Except.ok [1, 2], true, false, true, 50⟩
        ⟨true, some 0, some [9], none, 10, 1⟩).2.1.db = some 0 ∧
      (Mirror.refreshDB ⟨Except.ok [1, 2], true, false, true, 50⟩
        ⟨true, some 0, some [9], none, 10, 1⟩).2.1.dbPathContent = some [9] ∧
      (Mirror.refreshDB ⟨Except.ok [1, 2], true, false, true, 50⟩
        ⟨true, some 0, some [9], none, 10, 1⟩).2.1.lastRefresh = 10) ∧
    (⟨Except.ok [1, 2], true, true, true, 50⟩ :
        Mirror.RefreshEnv).writeOk = true := by
  constructor
  · exact ((refreshDB_atomic_install ⟨Except.ok [1, 2], true, false, true, 50⟩
      ⟨true, some 0, some [9], none, 10, 1⟩).1 (Or.inr (Or.inr rfl))).2
  · exact ((refreshDB_atomic_install ⟨Except.ok [1, 2], true, true, true, 50⟩
      ⟨true, some 0, some [9], none, 10, 1⟩).2 (Or.inl (by decide))).2.1

namespace WordWrite

/-- Model of Go `strings.TrimSpace`: drop leading and trailing whitespace. -/
def goTrimSpace (s : String) : String :=
  String.mk (((s.data.dropWhile Char.isWhitespace).reverse.dropWhile
    Char.isWhitespace).reverse)

/-- Model of Go `strings.ToLower`: lower-case every character. -/
def goToLower (s : String) : String :=
  String.mk (s.data.map Char.toLower)

/-- `WordStatusItem` from the SQL-backed word-status module. -/
structure WordStatusItem where
  wordText : String
  secondary : String
deriving DecidableEq, Repr

/-- `wordStatusUpdate` from the SQL-backed word-status module. -/
structure WordStatusUpdate where
  knownStatus : String
  tracked : Bool
deriving DecidableEq, Repr

/-- `statusToUpdate`: lower-cases and trims the status and maps the four
accepted values; every other status is rejected. -/
def statusToUpdate (status : String) : Option WordStatusUpdate :=
  let normalized := goToLower (goTrimSpace status)
  if normalized = "known" then some ⟨"KNOWN", false⟩
  else if normalized = "learning" then some ⟨"LEARNING", false⟩
  else if normalized = "ignored" then some ⟨"IGNORED", false⟩
  else if normalized = "tracked" then some ⟨"UNKNOWN", true⟩
  else none

/-- The fields of `wordRecord` that drive control flow in
`setWordStatusItems` and `updateLocalWordStatus` (`sql.Null*` is `Option`). -/
structure WordRecord where
  dictForm : Option String
  secondary : Option String
  partOfSpeech : Option String
  language : Option String
  serverMod : Option Int
  hasCard : Option Bool
deriving DecidableEq, Repr

/-- The distinguishable errors `setWordStatusItems` can return. -/
inductive SetWordError where
  | clientNotAuth
  | invalidStatus
  | wordTextRequired
  | refreshFailed (e : GoError)
  | wordNotFound (wordText : String)
  | syncFailed
  | missingRequiredFields
  | localUpdateFailed
deriving DecidableEq, Repr

/-- Observable side effects of `setWordStatusItems`, in program order. -/
inductive WriteEvent where
  | refreshCheck
  | lookup (wordText : String)
  | pushSync (count : Nat)
  | localUpdate (wordText : String)
  | cacheClear
deriving DecidableEq, Repr

/-- Outcome oracles for one `setWordStatusItems` run: the staleness-check
inputs and the inner `refreshDB` outcome, the mirror lookup per word, the
remote `PushSync` outcome, and the per-record local `UPDATE` outcome. -/
structure WriteEnv where
  clientPresent : Bool
  now : Int
  lastRefresh : Int
  cacheTtl : Int
  refreshDBResult : Except GoError Unit
  lookup : String → String → Option WordRecord
  pushOk : Bool
  updateOk : String → Bool

/-- The normalization loop of `setWordStatusItems`: trims every item and
fails at the first item whose trimmed `wordText` is empty. -/
def normalizeItems : List WordStatusItem → Option (List WordStatusItem)
  | [] => some []
  | item :: rest =>
      let wordText := goTrimSpace item.wordText
      let secondary := goTrimSpace item.secondary
      if wordText = "" then none
      else
        match normalizeItems rest with
        | none => none
        | some tl => some (⟨wordText, secondary⟩ :: tl)

/-- The lookup loop of `setWordStatusItems`: `lookupWordRecord` per item in
order, stopping at the first miss with `ErrWordNotFound` wrapping that
item's word text. -/
def lookupAll (lk : String → String → Option WordRecord) :
    List WordStatusItem → Except SetWordError (List WordRecord) × List WriteEvent
  | [] => (Except.ok [], [])
  | item :: rest =>
      match lk item.wordText item.secondary with
      | none =>
          (Except.error (SetWordError.wordNotFound item.wordText),
           [WriteEvent.lookup item.wordText])
      | some record =>
          match lookupAll lk rest with
          | (Except.error e, evs) =>
              (Except.error e, WriteEvent.lookup item.wordText :: evs)
          | (Except.ok records, evs) =>
              (Except.ok (record :: records), WriteEvent.lookup item.wordText :: evs)

/-- `updateLocalWordStatus`: for each record, `requireRecordKeys` demands
valid `dictForm`, `partOfSpeech` and `language`, then one local `UPDATE`
runs; the loop stops at the first failure. -/
def updateAll (updOk : String → Bool) :
    List WordRecord → Except SetWordError Unit × List WriteEvent
  | [] => (Except.ok (), [])
  | record :: rest =>
      match record.dictForm, record.partOfSpeech, record.language with
      | some dictForm, some _, some _ =>
          if ¬ updOk dictForm then
            (Except.error SetWordError.localUpdateFailed,
             [WriteEvent.localUpdate dictForm])
          else
            match updateAll updOk rest with
            | (res, evs) => (res, WriteEvent.localUpdate dictForm :: evs)
      | _, _, _ => (Except.error SetWordError.missingRequiredFields, [])

/-- `setWordStatusItems` from the SQL-backed word-status module: validate
client/status/items, refresh the mirror if stale, look up every word in the
mirror, push the batch to the remote sync service, apply the local
`UPDATE`s, and finally clear the result cache. -/
def setWordStatusItems (env : WriteEnv) (items : List WordStatusItem)
    (status : String) :
    Except SetWordError Unit × List WriteEvent :=
  if ¬ env.clientPresent then
    (Except.error SetWordError.clientNotAuth, [])
  else
    match statusToUpdate status with
    | none => (Except.error SetWordError.invalidStatus, [])
    | some _ =>
        if items = [] then
          (Except.error SetWordError.wordTextRequired, [])
        else
          match normalizeItems items with
          | none => (Except.error SetWordError.wordTextRequired, [])
          | some normalizedItems =>
              match Client.refreshDBIfStale env.now env.lastRefresh env.cacheTtl
                  env.refreshDBResult with
              | (Except.error e, _) =>
                  (Except.error (SetWordError.refreshFailed e),
                   [WriteEvent.refreshCheck])
              | (Except.ok _, _) =>
                  match lookupAll env.lookup normalizedItems with
                  | (Except.error e, evs) =>
                      (Except.error e, WriteEvent.refreshCheck :: evs)
                  | (Except.ok records, evs) =>
                      let trace1 := WriteEvent.refreshCheck :: evs ++
                        [WriteEvent.pushSync normalizedItems.length]
                      if ¬ env.pushOk then
                        (Except.error SetWordError.syncFailed, trace1)
                      else
                        match updateAll env.updateOk records with
                        | (Except.error e, uevs) =>
                            (Except.error e, trace1 ++ uevs)
                        | (Except.ok _, uevs) =>
                            (Except.ok (), trace1 ++ uevs ++ [WriteEvent.cacheClear])

theorem lookupAll_events (lk : String → String → Option WordRecord)
    (l : List WordStatusItem) :
    ∀ ev ∈ (lookupAll lk l).2, ∃ w, ev = WriteEvent.lookup w := by
  induction l with
  | nil => intro ev hev; simp [lookupAll] at hev
  | cons item rest ih =>
      intro ev hev
      simp only [lookupAll] at hev
      cases hlk : lk item.wordText item.secondary with
      | none =>
          rw [hlk] at hev
          simp at hev
          exact ⟨item.wordText, hev⟩
      | some record =>
          rw [hlk] at hev
          cases hrec : lookupAll lk rest with
          | mk res evs =>
              rw [hrec] at hev
              cases res with
              | error e =>
                  simp at hev
                  rcases hev with hev | hev
                  · exact ⟨item.wordText, hev⟩
                  · exact ih ev (by rw [hrec]; exact hev)
              | ok records =>
                  simp at hev
                  rcases hev with hev | hev
                  · exact ⟨item.wordText, hev⟩
                  · exact ih ev (by rw [hrec]; exact hev)

theorem lookupAll_error_shape (lk : String → String → Option WordRecord)
    (l : List WordStatusItem) (e : SetWordError)
    (he : (lookupAll lk l).1 = Except.error e) :
    ∃ w, e = SetWordError.wordNotFound w := by
  induction l with
  | nil => simp [lookupAll] at he
  | cons item rest ih =>
      simp only [lookupAll] at he
      cases hlk : lk item.wordText item.secondary with
      | none =>
          rw [hlk] at he
          simp at he
          exact ⟨item.wordText, he.symm⟩
      | some record =>
          rw [hlk] at he
          cases hrec : lookupAll lk rest with
          | mk res evs =>
              rw [hrec] at he
              cases res with
              | error e0 =>
                  simp at he
                  exact ih (by rw [hrec, he])
              | ok records => simp at he

theorem lookupAll_error_of_missing (lk : String → String → Option WordRecord)
    (l : List WordStatusItem)
    (hmiss : ∃ item ∈ l, lk item.wordText item.secondary = none) :
    ∃ e, (lookupAll lk l).1 = Except.error e := by
  induction l with
  | nil => simp at hmiss
  | cons item rest ih =>
      rcases hmiss with ⟨it, hit, hnone⟩
      simp only [lookupAll]
      cases hlk : lk item.wordText item.secondary with
      | none => exact ⟨SetWordError.wordNotFound item.wordText, rfl⟩
      | some record =>
          rcases List.mem_cons.mp hit with heq | hmem
          · subst heq
            rw [hnone] at hlk
            exact absurd hlk (by simp)
          · rcases ih ⟨it, hmem, hnone⟩ with ⟨e, he⟩
            cases hrec : lookupAll lk rest with
            | mk res evs =>
                rw [hrec] at he
                cases res with
                | error e0 => exact ⟨e0, rfl⟩
                | ok records => simp at he

theorem updateAll_events (updOk : String → Bool) (rs : List WordRecord) :
    ∀ ev ∈ (updateAll updOk rs).2, ∃ w, ev = WriteEvent.localUpdate w := by
  induction rs with
  | nil => intro ev hev; simp [updateAll] at hev
  | cons record rest ih =>
      intro ev hev
      simp only [updateAll] at hev
      cases hdf : record.dictForm with
      | none => rw [hdf] at hev; simp at hev
      | some dictForm =>
          cases hps : record.partOfSpeech with
          | none => rw [hdf, hps] at hev; simp at hev
          | some ps =>
              cases hlang : record.language with
              | none => rw [hdf, hps, hlang] at hev; simp at hev
              | some lang =>
                  rw [hdf, hps, hlang] at hev
                  by_cases hupd : updOk dictForm
                  · simp only [hupd, not_true_eq_false, if_false] at hev
                    cases hrec : updateAll updOk rest with
                    | mk res evs =>
                        rw [hrec] at hev
                        simp at hev
                        rcases hev with hev | hev
                        · exact ⟨dictForm, hev⟩
                        · exact ih ev (by rw [hrec]; exact hev)
                  · simp only [hupd, not_false_eq_true, if_true] at hev
                    simp at hev
                    exact ⟨dictForm, hev⟩

end WordWrite

/-- C5: when some requested word is absent from the mirror (its lookup
returns no row), `setWordStatusItems` returns an error wrapping
`ErrWordNotFound` and its trace contains no `PushSync`, no local `UPDATE`
and no cache clear. -/
theorem setWordStatus_word_not_found (env : WordWrite.WriteEnv)
    (items nitems : List WordWrite.WordStatusItem) (status : String)
    (u : WordWrite.WordStatusUpdate)
    (hclient : env.clientPresent = true)
    (hstatus : WordWrite.statusToUpdate status = some u)
    (hitems : items ≠ [])
    (hnorm : WordWrite.normalizeItems items = some nitems)
    (hrefresh : (Client.refreshDBIfStale env.now env.lastRefresh env.cacheTtl
      env.refreshDBResult).1 = Except.ok ())
    (hmiss : ∃ item ∈ nitems, env.lookup item.wordText item.secondary = none) :
    (∃ w, (WordWrite.setWordStatusItems env items status).1 =
      Except.error (WordWrite.SetWordError.wordNotFound w)) ∧
    (∀ n, WordWrite.WriteEvent.pushSync n ∉
      (WordWrite.setWordStatusItems env items status).2) ∧
    (∀ w, WordWrite.WriteEvent.localUpdate w ∉
      (WordWrite.setWordStatusItems env items status).2) ∧
    WordWrite.WriteEvent.cacheClear ∉
      (WordWrite.setWordStatusItems env items status).2 := by
  obtain ⟨e, he⟩ := WordWrite.lookupAll_error_of_missing env.lookup nitems hmiss
  obtain ⟨w, hw⟩ := WordWrite.lookupAll_error_shape env.lookup nitems e he
  subst hw
  have hpair : Client.refreshDBIfStale env.now env.lastRefresh env.cacheTtl
      env.refreshDBResult =
      (Except.ok (), (Client.refreshDBIfStale env.now env.lastRefresh env.cacheTtl
        env.refreshDBResult).2) := by
    rw [← hrefresh]
  have hLpair : WordWrite.lookupAll env.lookup nitems =
      (Except.error (WordWrite.SetWordError.wordNotFound w),
       (WordWrite.lookupAll env.lookup nitems).2) := by
    rw [← he]
  have hres : WordWrite.setWordStatusItems env items status =
      (Except.error (WordWrite.SetWordError.wordNotFound w),
       WordWrite.WriteEvent.refreshCheck ::
         (WordWrite.lookupAll env.lookup nitems).2) := by
    unfold WordWrite.setWordStatusItems
    rw [hstatus, hnorm, hpair]
    simp [hclient, hitems]
    rw [hLpair]
  rw [hres]
  refine ⟨⟨w, rfl⟩, ?_, ?_, ?_⟩
  · intro n hn
    rcases List.mem_cons.mp hn with h | h
    · exact absurd h (by simp)
    · obtain ⟨w', hw'⟩ := WordWrite.lookupAll_events env.lookup nitems _ h
      exact absurd hw' (by simp)
  · intro v hv
    rcases List.mem_cons.mp hv with h | h
    · exact absurd h (by simp)
    · obtain ⟨w', hw'⟩ := WordWrite.lookupAll_events env.lookup nitems _ h
      exact absurd hw' (by simp)
  · intro hc
    rcases List.mem_cons.mp hc with h | h
    · exact absurd h (by simp)
    · obtain ⟨w', hw'⟩ := WordWrite.lookupAll_events env.lookup nitems _ h
      exact absurd hw' (by simp)

/-- Witness for C5 at concrete inputs: one requested word, absent from the
mirror — the write fails with `ErrWordNotFound` and no push, local update
or cache clear appears in the trace. -/
theorem setWordStatus_word_not_found_witness :
    WordWrite.WriteEvent.pushSync 1 ∉
      (WordWrite.setWordStatusItems
        ⟨true, 0, 0, 0, Except.ok (), fun _ _ => none, true, fun _ => true⟩
        [⟨"foo", ""⟩] "known").2 ∧
    WordWrite.WriteEvent.localUpdate "foo" ∉
      (WordWrite.setWordStatusItems
        ⟨true, 0, 0, 0, Except.ok (), fun _ _ => none, true, fun _ => true⟩
        [⟨"foo", ""⟩] "known").2 ∧
    WordWrite.WriteEvent.cacheClear ∉
      (WordWrite.setWordStatusItems
        ⟨true, 0, 0, 0, Except.ok (), fun _ _ => none, true, fun _ => true⟩
        [⟨"foo", ""⟩] "known").2 := by
  have h := setWordStatus_word_not_found
    ⟨true, 0, 0, 0, Except.ok (), fun _ _ => none, true, fun _ => true⟩
    [⟨"foo", ""⟩] [⟨"foo", ""⟩] "known" ⟨"KNOWN", false⟩
    rfl (by decide) (by simp) (by decide) (by rfl)
    ⟨⟨"foo", ""⟩, by decide, rfl⟩
  exact ⟨h.2.1 1, h.2.2.1 "foo", h.2.2.2⟩

/-- C6: on the success path of `setWordStatusItems` the remote `PushSync`
appears in the trace after the lookups and before every local `UPDATE`,
with the cache clear last, so every previously cached key subsequently
misses (`Get` after `Clear` is `none`); and when `PushSync` fails, the
call errors with no local update and no cache clear. -/
theorem setWordStatus_push_before_local (env : WordWrite.WriteEnv)
    (items nitems : List WordWrite.WordStatusItem) (status : String)
    (u : WordWrite.WordStatusUpdate) (records : List WordWrite.WordRecord)
    (levs uevs : List WordWrite.WriteEvent)
    (hclient : env.clientPresent = true)
    (hstatus : WordWrite.statusToUpdate status = some u)
    (hitems : items ≠ [])
    (hnorm : WordWrite.normalizeItems items = some nitems)
    (hrefresh : (Client.refreshDBIfStale env.now env.lastRefresh env.cacheTtl
      env.refreshDBResult).1 = Except.ok ())
    (hlook : WordWrite.lookupAll env.lookup nitems = (Except.ok records, levs)) :
    (env.pushOk = false →
      (WordWrite.setWordStatusItems env items status).1 =
        Except.error WordWrite.SetWordError.syncFailed ∧
      (∀ w, WordWrite.WriteEvent.localUpdate w ∉
        (WordWrite.setWordStatusItems env items status).2) ∧
      WordWrite.WriteEvent.cacheClear ∉
        (WordWrite.setWordStatusItems env items status).2) ∧
    (env.pushOk = true →
      WordWrite.updateAll env.updateOk records = (Except.ok (), uevs) →
      WordWrite.setWordStatusItems env items status =
        (Except.ok (),
         WordWrite.WriteEvent.refreshCheck :: levs ++
           [WordWrite.WriteEvent.pushSync nitems.length] ++ uevs ++
           [WordWrite.WriteEvent.cacheClear]) ∧
      (∀ ev ∈ levs, ∃ w, ev = WordWrite.WriteEvent.lookup w) ∧
      (∀ ev ∈ uevs, ∃ w, ev = WordWrite.WriteEvent.localUpdate w)) ∧
    (∀ (V : Type) (c : ResultCache.Cache V) (now : Int) (k : String),
      ((ResultCache.Cache.clear c).get now k).1 = none) := by
  have hpair : Client.refreshDBIfStale env.now env.lastRefresh env.cacheTtl
      env.refreshDBResult =
      (Except.ok (), (Client.refreshDBIfStale env.now env.lastRefresh env.cacheTtl
        env.refreshDBResult).2) := by
    rw [← hrefresh]
  refine ⟨?_, ?_, ?_⟩
  · intro hpush
    have hres : WordWrite.setWordStatusItems env items status =
        (Except.error WordWrite.SetWordError.syncFailed,
         WordWrite.WriteEvent.refreshCheck ::
           (levs ++ [WordWrite.WriteEvent.pushSync nitems.length])) := by
      unfold WordWrite.setWordStatusItems
      rw [hstatus, hnorm, hpair]
      simp [hclient, hitems]
      rw [hlook]
      simp [hpush]
    rw [hres]
    refine ⟨rfl, ?_, ?_⟩
    · intro w hmem
      simp only [List.mem_cons, List.mem_append, List.mem_singleton] at hmem
      rcases hmem with h | h | h
      · exact absurd h (by simp)
      · obtain ⟨w', hw'⟩ := by
          have := WordWrite.lookupAll_events env.lookup nitems
          rw [hlook] at this
          exact this _ h
        exact absurd hw' (by simp)
      · exact absurd h (by simp)
    · intro hmem
      simp only [List.mem_cons, List.mem_append, List.mem_singleton] at hmem
      rcases hmem with h | h | h
      · exact absurd h (by simp)
      · obtain ⟨w', hw'⟩ := by
          have := WordWrite.lookupAll_events env.lookup nitems
          rw [hlook] at this
          exact this _ h
        exact absurd hw' (by simp)
      · exact absurd h (by simp)
  · intro hpush hupd
    have hres : WordWrite.setWordStatusItems env items status =
        (Except.ok (),
         WordWrite.WriteEvent.refreshCheck ::
           (levs ++ (WordWrite.WriteEvent.pushSync nitems.length ::
             (uevs ++ [WordWrite.WriteEvent.cacheClear])))) := by
      unfold WordWrite.setWordStatusItems
      rw [hstatus, hnorm, hpair]
      simp [hclient, hitems]
      rw [hlook]
      simp [hpush]
      rw [hupd]
    refine ⟨by rw [hres]; simp, ?_, ?_⟩
    · intro ev hev
      have := WordWrite.lookupAll_events env.lookup nitems
      rw [hlook] at this
      exact this ev hev
    · intro ev hev
      have := WordWrite.updateAll_events env.updateOk records
      rw [hupd] at this
      exact this ev hev
  · intro V c now k
    simp [ResultCache.Cache.clear, ResultCache.Cache.get]

/-- Witness for C6 at concrete inputs: one word present in the mirror, a
successful push and local update — the trace is exactly lookups, then the
push, then the update, then the cache clear, and a cleared cache misses. -/
theorem setWordStatus_push_before_local_witness :
    WordWrite.setWordStatusItems
      ⟨true, 0, 0, 0, Except.ok (),
        fun _ _ => some ⟨some "foo", some "", some "n", some "ja", some 5, some true⟩,
        true, fun _ => true⟩
      [⟨"foo", ""⟩] "known" =
      (Except.ok (),
       [WordWrite.WriteEvent.refreshCheck, WordWrite.WriteEvent.lookup "foo",
        WordWrite.WriteEvent.pushSync 1, WordWrite.WriteEvent.localUpdate "foo",
        WordWrite.WriteEvent.cacheClear]) ∧
    ((ResultCache.Cache.clear
      ((ResultCache.NewCache Nat 10).set 0 "words:all" 3)).get 1 "words:all").1 =
      none := by
  have h := setWordStatus_push_before_local
    ⟨true, 0, 0, 0, Except.ok (),
      fun _ _ => some ⟨some "foo", some "", some "n", some "ja", some 5, some true⟩,
      true, fun _ => true⟩
    [⟨"foo", ""⟩] [⟨"foo", ""⟩] "known" ⟨"KNOWN", false⟩
    [⟨some "foo", some "", some "n", some "ja", some 5, some true⟩]
    [WordWrite.WriteEvent.lookup "foo"] [WordWrite.WriteEvent.localUpdate "foo"]
    rfl (by decide) (by simp) (by decide) (by rfl) (by rfl)
  refine ⟨?_, h.2.2 Nat ((ResultCache.NewCache Nat 10).set 0 "words:all" 3) 1 "words:all"⟩
  have h2 := (h.2.1 rfl (by rfl)).1
  rw [h2]
  simp

namespace Session

/-- Outcome oracles for one `doAuthorizedJSONRequest` run: the result of
`auth.get`, the first `doJSONRequest` to the target URL (body and status,
or a transport error), the forced `auth.refresh`, and the retried
`doJSONRequest`. -/
structure AuthReqEnv where
  getResult : Except GoError String
  firstResult : Except GoError (String × Int)
  refreshResult : Except GoError String
  retryResult : Except GoError (String × Int)

/-- `doAuthorizedJSONRequest` from `migaku_api.go`: fetch a token, issue
the request, return any status other than 401/403 as-is; on 401/403 force
one `auth.refresh` and, if it succeeds, retry exactly once and surface the
retry's outcome; a failed refresh surfaces its error.  The two counters
are the `doJSONRequest` calls issued for the target URL and the forced
`auth.refresh` calls. -/
def doAuthorizedJSONRequest (env : AuthReqEnv) :
    Except GoError (String × Int) × Nat × Nat :=
  match env.getResult with
  | Except.error e => (Except.error e, 0, 0)
  | Except.ok _ =>
      match env.firstResult with
      | Except.error e => (Except.error e, 1, 0)
      | Except.ok (body, status) =>
          if status ≠ 401 ∧ status ≠ 403 then
            (Except.ok (body, status), 1, 0)
          else
            match env.refreshResult with
            | Except.error e => (Except.error e, 1, 1)
            | Except.ok _ => (env.retryResult, 2, 1)

end Session

/-- C7: `doAuthorizedJSONRequest` issues at most two requests to the target
URL and at most one forced refresh; a first response that is neither 401
nor 403 is returned with no refresh; on 401/403 with a successful forced
refresh the request is retried exactly once and the retry's result is
surfaced unchanged (and a failed forced refresh is surfaced with no
retry). -/
theorem doAuthorizedJSONRequest_retry_once (env : Session.AuthReqEnv) :
    ((Session.doAuthorizedJSONRequest env).2.1 ≤ 2 ∧
     (Session.doAuthorizedJSONRequest env).2.2 ≤ 1) ∧
    (∀ tok body status, env.getResult = Except.ok tok →
      env.firstResult = Except.ok (body, status) →
      status ≠ 401 → status ≠ 403 →
      Session.doAuthorizedJSONRequest env = (Except.ok (body, status), 1, 0)) ∧
    (∀ tok body status, env.getResult = Except.ok tok →
      env.firstResult = Except.ok (body, status) →
      (status = 401 ∨ status = 403) →
      (∀ newTok, env.refreshResult = Except.ok newTok →
        Session.doAuthorizedJSONRequest env = (env.retryResult, 2, 1)) ∧
      (∀ e, env.refreshResult = Except.error e →
        Session.doAuthorizedJSONRequest env = (Except.error e, 1, 1))) := by
  refine ⟨?_, ?_, ?_⟩
  · unfold Session.doAuthorizedJSONRequest
    rcases env.getResult with e | tok
    · simp
    · rcases env.firstResult with e | ⟨body, status⟩
      · simp
      · by_cases h : status ≠ 401 ∧ status ≠ 403
        · simp [h]
        · rcases env.refreshResult with e | newTok
          · simp [h]
          · simp [h]
  · intro tok body status hget hfirst h401 h403
    unfold Session.doAuthorizedJSONRequest
    rw [hget, hfirst]
    simp [h401, h403]
  · intro tok body status hget hfirst hbad
    constructor
    · intro newTok hrefresh
      unfold Session.doAuthorizedJSONRequest
      rw [hget, hfirst, hrefresh]
      rcases hbad with h | h <;> simp [h]
    · intro e hrefresh
      unfold Session.doAuthorizedJSONRequest
      rw [hget, hfirst, hrefresh]
      rcases hbad with h | h <;> simp [h]

/-- Witness for C7 at concrete inputs: a 200 response is surfaced with one
request and no refresh; a 401 response with a successful refresh yields the
retry's result after exactly two requests and one refresh. -/
theorem doAuthorizedJSONRequest_retry_once_witness :
    Session.doAuthorizedJSONRequest
      ⟨Except.ok "t", Except.ok ("body", 200), Except.ok "t2",
        Except.ok ("b2", 200)⟩ = (Except.ok ("body", 200), 1, 0) ∧
    Session.doAuthorizedJSONRequest
      ⟨Except.ok "t", Except.ok ("b", 401), Except.ok "t2",
        Except.ok ("b2", 200)⟩ = (Except.ok ("b2", 200), 2, 1) := by
  constructor
  · exact (doAuthorizedJSONRequest_retry_once
      ⟨Except.ok "t", Except.ok ("body", 200), Except.ok "t2",
        Except.ok ("b2", 200)⟩).2.1 "t" "body" 200 rfl rfl
      (by decide) (by decide)
  · exact ((doAuthorizedJSONRequest_retry_once
      ⟨Except.ok "t", Except.ok ("b", 401), Except.ok "t2",
        Except.ok ("b2", 200)⟩).2.2 "t" "b" 401 rfl rfl
      (Or.inl rfl)).1 "t2" rfl

namespace RowNorm

/-- A raw driver-level row value as `sqlx` `MapScan` hands it over
(`map[string]any`).  A Go `[]byte` is modelled by its decoded string
content; a Go `float64` holding an exactly representable value is modelled
as a rational. -/
inductive SqlValue where
  | nullV
  | bytes (content : String)
  | str (s : String)
  | int64 (n : Int)
  | intV (n : Int)
  | float64 (q : ℚ)
  | boolV (b : Bool)
deriving DecidableEq, Repr

/-- Go's `int64(v)` conversion of a `float64`: truncation toward zero. -/
def truncFloat (q : ℚ) : Int :=
  if 0 ≤ q.num then Int.ofNat (q.num.toNat / q.den)
  else - Int.ofNat ((- q.num).toNat / q.den)

/-- The fixed set of boolean-valued columns in `coerceInt64Value`. -/
def boolColumns : List String :=
  ["hasCard", "tracked", "isModern", "isPendingEnqueue", "isPendingApply"]

/-- `coerceInt64Value` from the SQL-backed word-status module: entries of
the fixed boolean column set become booleans (nonzero maps to true); every
other key keeps the int64 value. -/
def coerceInt64Value (key : String) (value : Int) : SqlValue :=
  if key ∈ boolColumns then SqlValue.boolV (value != 0)
  else SqlValue.int64 value

/-- `normalizeRow` from the SQL-backed word-status module: nil values are
skipped, byte slices become strings, `int64`/`int`/`float64` values go
through `coerceInt64Value` (after Go's `int64(v)` conversion), and every
other value is copied as-is. -/
def normalizeRow (raw : List (String × SqlValue)) : List (String × SqlValue) :=
  raw.filterMap (fun kv =>
    match kv.2 with
    | SqlValue.nullV => none
    | SqlValue.bytes content => some (kv.1, SqlValue.str content)
    | SqlValue.int64 n => some (kv.1, coerceInt64Value kv.1 n)
    | SqlValue.intV n => some (kv.1, coerceInt64Value kv.1 n)
    | SqlValue.float64 q => some (kv.1, coerceInt64Value kv.1 (truncFloat q))
    | v => some (kv.1, v))

end RowNorm

/-- C8 counterexample: the claim says values of columns outside the fixed
boolean set pass through unchanged, but `normalizeRow` converts a
`float64` value of such a column to a truncated `int64` (here 2.5 in
column `fail_rate` becomes the integer 2). -/
theorem normalizeRow_counterexample :
    RowNorm.normalizeRow [("fail_rate", RowNorm.SqlValue.float64 (mkRat 5 2))] =
      [("fail_rate", RowNorm.SqlValue.int64 2)] ∧
    RowNorm.normalizeRow [("fail_rate", RowNorm.SqlValue.float64 (mkRat 5 2))] ≠
      [("fail_rate", RowNorm.SqlValue.float64 (mkRat 5 2))] := by
  constructor
  · decide
  · decide

/-- C8 (amended): `normalizeRow` turns byte slices into strings; numeric
values (`int64`, `int`, `float64`) of the fixed boolean columns become
booleans (nonzero maps to true, floats truncated toward zero first);
numeric values of all other columns are canonicalized to `int64` (floats
truncated toward zero); nil entries are dropped; and values of every other
kind pass through unchanged. -/
theorem normalizeRow_amended (raw : List (String × RowNorm.SqlValue))
    (k : String) (v : RowNorm.SqlValue) (hmem : (k, v) ∈ raw) :
    (∀ content, v = RowNorm.SqlValue.bytes content →
      (k, RowNorm.SqlValue.str content) ∈ RowNorm.normalizeRow raw) ∧
    (∀ n, v = RowNorm.SqlValue.int64 n ∨ v = RowNorm.SqlValue.intV n →
      k ∈ RowNorm.boolColumns →
      (k, RowNorm.SqlValue.boolV (n != 0)) ∈ RowNorm.normalizeRow raw) ∧
    (∀ n, v = RowNorm.SqlValue.int64 n ∨ v = RowNorm.SqlValue.intV n →
      k ∉ RowNorm.boolColumns →
      (k, RowNorm.SqlValue.int64 n) ∈ RowNorm.normalizeRow raw) ∧
    (∀ q, v = RowNorm.SqlValue.float64 q → k ∈ RowNorm.boolColumns →
      (k, RowNorm.SqlValue.boolV (RowNorm.truncFloat q != 0)) ∈
        RowNorm.normalizeRow raw) ∧
    (∀ q, v = RowNorm.SqlValue.float64 q → k ∉ RowNorm.boolColumns →
      (k, RowNorm.SqlValue.int64 (RowNorm.truncFloat q)) ∈
        RowNorm.normalizeRow raw) ∧
    (∀ s, v = RowNorm.SqlValue.str s → (k, v) ∈ RowNorm.normalizeRow raw) ∧
    (∀ b, v = RowNorm.SqlValue.boolV b → (k, v) ∈ RowNorm.normalizeRow raw) ∧
    (∀ k', (k', RowNorm.SqlValue.nullV) ∉ RowNorm.normalizeRow raw) := by
  refine ⟨?_, ?_, ?_, ?_, ?_, ?_, ?_, ?_⟩
  · intro content hv
    subst hv
    exact List.mem_filterMap.mpr ⟨(k, RowNorm.SqlValue.bytes content), hmem, rfl⟩
  · intro n hv hk
    refine List.mem_filterMap.mpr ⟨(k, v), hmem, ?_⟩
    rcases hv with hv | hv <;> subst hv <;>
      simp [RowNorm.coerceInt64Value, hk]
  · intro n hv hk
    refine List.mem_filterMap.mpr ⟨(k, v), hmem, ?_⟩
    rcases hv with hv | hv <;> subst hv <;>
      simp [RowNorm.coerceInt64Value, hk]
  · intro q hv hk
    subst hv
    refine List.mem_filterMap.mpr ⟨(k, RowNorm.SqlValue.float64 q), hmem, ?_⟩
    simp [RowNorm.coerceInt64Value, hk]
  · intro q hv hk
    subst hv
    refine List.mem_filterMap.mpr ⟨(k, RowNorm.SqlValue.float64 q), hmem, ?_⟩
    simp [RowNorm.coerceInt64Value, hk]
  · intro s hv
    subst hv
    exact List.mem_filterMap.mpr ⟨(k, RowNorm.SqlValue.str s), hmem, rfl⟩
  · intro b hv
    subst hv
    exact List.mem_filterMap.mpr ⟨(k, RowNorm.SqlValue.boolV b), hmem, rfl⟩
  · intro k' hbad
    obtain ⟨⟨k0, v0⟩, _, hf⟩ := List.mem_filterMap.mp hbad
    cases v0 with
    | nullV => simp at hf
    | bytes content => simp at hf
    | str s => simp at hf
    | int64 n =>
        simp only [Option.some.injEq, Prod.mk.injEq] at hf
        by_cases hk : k0 ∈ RowNorm.boolColumns <;>
          simp [RowNorm.coerceInt64Value, hk] at hf
    | intV n =>
        simp only [Option.some.injEq, Prod.mk.injEq] at hf
        by_cases hk : k0 ∈ RowNorm.boolColumns <;>
          simp [RowNorm.coerceInt64Value, hk] at hf
    | float64 q =>
        simp only [Option.some.injEq, Prod.mk.injEq] at hf
        by_cases hk : k0 ∈ RowNorm.boolColumns <;>
          simp [RowNorm.coerceInt64Value, hk] at hf
    | boolV b => simp at hf

/-- Witness for C8 (amended) at concrete inputs: a blob becomes a string,
a nonzero integer in `hasCard` becomes `true`, and an integer in an
ordinary column stays an `int64`. -/
theorem normalizeRow_amended_witness :
    ((("dictForm" : String), RowNorm.SqlValue.str "foo") ∈
      RowNorm.normalizeRow
        [("dictForm", RowNorm.SqlValue.bytes "foo"),
         ("hasCard", RowNorm.SqlValue.int64 1),
         ("serverMod", RowNorm.SqlValue.int64 7)]) ∧
    ((("hasCard" : String), RowNorm.SqlValue.boolV true) ∈
      RowNorm.normalizeRow
        [("dictForm", RowNorm.SqlValue.bytes "foo"),
         ("hasCard", RowNorm.SqlValue.int64 1),
         ("serverMod", RowNorm.SqlValue.int64 7)]) ∧
    ((("serverMod" : String), RowNorm.SqlValue.int64 7) ∈
      RowNorm.normalizeRow
        [("dictForm", RowNorm.SqlValue.bytes "foo"),
         ("hasCard", RowNorm.SqlValue.int64 1),
         ("serverMod", RowNorm.SqlValue.int64 7)]) := by
  refine ⟨?_, ?_, ?_⟩
  · exact (normalizeRow_amended _ "dictForm" (RowNorm.SqlValue.bytes "foo")
      (by simp)).1 "foo" rfl
  · have h := (normalizeRow_amended
      [("dictForm", RowNorm.SqlValue.bytes "foo"),
       ("hasCard", RowNorm.SqlValue.int64 1),
       ("serverMod", RowNorm.SqlValue.int64 7)]
      "hasCard" (RowNorm.SqlValue.int64 1) (by simp)).2.1 1 (Or.inl rfl)
      (by decide)
    simpa using h
  · exact (normalizeRow_amended _ "serverMod" (RowNorm.SqlValue.int64 7)
      (by simp)).2.2.1 7 (Or.inl rfl) (by decide)

namespace Words

/-- A `WordList` row with the columns the words query consults. -/
structure WordListRow where
  dictForm : String
  secondary : String
  knownStatus : String
  language : String
  del : Int
deriving DecidableEq, Repr

/-- Relational semantics of the SQL built by `Repository.GetWords` with no
deck filter: `del = 0`, an optional `language` equality filter, an optional
`knownStatus` equality filter, and a `LIMIT` clause only when `limit > 0`. -/
def repoGetWords (table : List WordListRow) (lang status : String)
    (limit : Nat) : List WordListRow :=
  let rows := table.filter (fun r =>
    r.del == 0 && (lang == "" || r.language == lang)
      && (status == "" || r.knownStatus == status))
  if limit > 0 then rows.take limit else rows

/-- `MigakuService.GetWords` from `service.go` on the cache-miss path:
reject an invalid status, map the public status to the stored
`knownStatus` value, cap the query at 10000 rows exactly when the status
filter is empty, and run the repository query. -/
def serviceGetWords (table : List WordListRow) (lang status : String) :
    Except GoError (List WordListRow) :=
  if status ≠ "" ∧ status ≠ "known" ∧ status ≠ "learning" ∧
      status ≠ "unknown" ∧ status ≠ "ignored" then
    Except.error
      (GoError.mk "invalid status: must be one of: known, learning, unknown, ignored")
  else
    let dbStatus :=
      if status = "known" then "KNOWN"
      else if status = "learning" then "LEARNING"
      else if status = "unknown" then "UNKNOWN"
      else if status = "ignored" then "IGNORED"
      else ""
    let limit := if dbStatus = "" then 10000 else 0
    Except.ok (repoGetWords table lang dbStatus limit)

end Words

/-- C10: with an empty status filter, `GetWords` runs the repository query
with `LIMIT 10000`, so it returns the first 10000 matching rows and never
more than 10000; with each valid non-empty status, no limit is applied and
every matching row is returned. -/
theorem getWords_unfiltered_cap (table : List Words.WordListRow) (lang : String) :
    (Words.serviceGetWords table lang "" =
      Except.ok ((table.filter (fun r =>
        r.del == 0 && (lang == "" || r.language == lang))).take 10000) ∧
     ∀ rows, Words.serviceGetWords table lang "" = Except.ok rows →
       rows.length ≤ 10000) ∧
    (Words.serviceGetWords table lang "known" =
      Except.ok (table.filter (fun r =>
        r.del == 0 && (lang == "" || r.language == lang)
          && (r.knownStatus == "KNOWN")))) ∧
    (Words.serviceGetWords table lang "learning" =
      Except.ok (table.filter (fun r =>
        r.del == 0 && (lang == "" || r.language == lang)
          && (r.knownStatus == "LEARNING")))) ∧
    (Words.serviceGetWords table lang "unknown" =
      Except.ok (table.filter (fun r =>
        r.del == 0 && (lang == "" || r.language == lang)
          && (r.knownStatus == "UNKNOWN")))) ∧
    (Words.serviceGetWords table lang "ignored" =
      Except.ok (table.filter (fun r =>
        r.del == 0 && (lang == "" || r.language == lang)
          && (r.knownStatus == "IGNORED")))) := by
  have hempty : Words.serviceGetWords table lang "" =
      Except.ok ((table.filter (fun r =>
        r.del == 0 && (lang == "" || r.language == lang))).take 10000) := by
    unfold Words.serviceGetWords Words.repoGetWords
    simp
  refine ⟨⟨hempty, ?_⟩, ?_, ?_, ?_, ?_⟩
  · intro rows hrows
    rw [hempty] at hrows
    simp only [Except.ok.injEq] at hrows
    rw [← hrows]
    calc (List.take 10000 (table.filter (fun r =>
        r.del == 0 && (lang == "" || r.language == lang)))).length
        = min 10000 (table.filter (fun r =>
            r.del == 0 && (lang == "" || r.language == lang))).length := by
          rw [List.length_take]
      _ ≤ 10000 := Nat.min_le_left _ _
  · unfold Words.serviceGetWords Words.repoGetWords
    simp
  · unfold Words.serviceGetWords Words.repoGetWords
    simp
  · unfold Words.serviceGetWords Words.repoGetWords
    simp
  · unfold Words.serviceGetWords Words.repoGetWords
    simp

/-- Witness for C10 at concrete inputs: a two-row table queried with
status `known` returns exactly the single matching row with no cap
applied, and the unfiltered query over an empty table returns at most
10000 rows. -/
theorem getWords_unfiltered_cap_witness :
    Words.serviceGetWords
      [⟨"a", "", "KNOWN", "ja", 0⟩, ⟨"b", "", "LEARNING", "ja", 0⟩]
      "" "known" =
      Except.ok [⟨"a", "", "KNOWN", "ja", 0⟩] ∧
    ([] : List Words.WordListRow).length ≤ 10000 := by
  constructor
  · have h := (getWords_unfiltered_cap
      [⟨"a", "", "KNOWN", "ja", 0⟩, ⟨"b", "", "LEARNING", "ja", 0⟩] "").2.1
    rw [h]
    rfl
  · exact (getWords_unfiltered_cap ([] : List Words.WordListRow) "").1.2 [] (by rfl)
